import Mathlib

/-!
Verification development for the `date-operations-mcp` server.

The TypeScript sources are embedded shallowly:

* `src/config.ts` — the `Config` record and `getConfig`, with the environment
  modelled as optional inputs (`ASANA_DUE_HOUR` arrives already parsed, as
  `parseInt` would deliver it).
* `src/dateCalculations.ts` and the Asana helper module — namespace `Calc`.
  A JavaScript `Date` is modelled as local wall-clock fields
  `{day, hour, minute, second, ms}` (the calendar day number since the epoch,
  1970-01-01 = day 0, plus the time of day).  `Date` comparison in JS compares
  epoch milliseconds, which is `toMs` below; `date-fns` `addDays`/`subDays`
  shift the calendar day keeping the wall-clock time, `getDay`/`isWeekend`
  read the local calendar day (1970-01-01 was a Thursday, so JS
  `getDay = (day + 4) mod 7` with 0 = Sunday), and `format(date,'yyyy-MM-dd')`
  renders the local calendar day.  Since ISO day strings are in bijection with
  calendar days, the fetched holiday set of ISO strings is modelled by the set
  (list) of its calendar day numbers.
* the bank-holiday module — namespace `BankHolidays`.  The network is an
  explicit oracle: each HTTP interaction is a `FetchOutcome`/`NagerOutcome`
  value, and the `try/catch` blocks become matches on the failure
  constructors.  The module-level mutable cache becomes an explicit `State`
  threaded through `fetchBankHolidays`, which also reports whether an
  external fetch was performed.
* namespace `Zoned` — an instant/offset model used to compare the code's
  calendar-day classification (which uses the process-local timezone of the
  `Date` value, via `date-fns` `isWeekend` and `format`) against the
  specification's zoned classification.  Timezones are modelled as fixed
  UTC offsets in minutes.
-/

/-! ## Configuration (src/config.ts) -/

structure Config where
  timezone : String
  asanaDueHour : Int
  bankHolidayCountry : String
  enableBankHolidays : Bool
deriving Repr, DecidableEq

/-- The `COUNTRY_TIMEZONES` record from `src/config.ts`. -/
def COUNTRY_TIMEZONES (c : String) : Option String :=
  if c = "NONE" then some "Europe/London"
  else if c = "GB" then some "Europe/London"
  else if c = "RO" then some "Europe/Bucharest"
  else if c = "ES" then some "Europe/Madrid"
  else if c = "IE" then some "Europe/Dublin"
  else if c = "DK" then some "Europe/Copenhagen"
  else if c = "DE" then some "Europe/Berlin"
  else if c = "PL" then some "Europe/Warsaw"
  else if c = "US" then some "America/New_York"
  else if c = "NZ" then some "Pacific/Auckland"
  else if c = "AU" then some "Australia/Sydney"
  else if c = "MY" then some "Asia/Kuala_Lumpur"
  else if c = "LK" then some "Asia/Colombo"
  else if c = "TH" then some "Asia/Bangkok"
  else if c = "VN" then some "Asia/Ho_Chi_Minh"
  else none

/-- `getConfig` from `src/config.ts`.  `envBankHolidayCountry` and
`envTimezone` model the raw environment strings; `envAsanaDueHour` models the
result of `parseInt(process.env.ASANA_DUE_HOUR || '16', 10)` on a
successfully parsed integer input.  Out-of-range hours are clamped to
`[0, 23]` exactly as `Math.max(0, Math.min(23, h))` does. -/
def getConfig (envBankHolidayCountry : Option String) (envTimezone : Option String)
    (envAsanaDueHour : Option Int) : Config :=
  let bankHolidayCountry := (envBankHolidayCountry.getD "NONE").toUpper
  let enableBankHolidays := bankHolidayCountry != "NONE"
  let timezone := match envTimezone with
    | some tz => tz
    | none => (COUNTRY_TIMEZONES bankHolidayCountry).getD "Europe/London"
  let asanaDueHour := envAsanaDueHour.getD 16
  { timezone := timezone
    asanaDueHour := max 0 (min 23 asanaDueHour)
    bankHolidayCountry := bankHolidayCountry
    enableBankHolidays := enableBankHolidays }

/-! ## Working-day calculator (src/dateCalculations.ts) -/

namespace Calc

/-- A JavaScript `Date`, decomposed into its process-local wall-clock fields:
calendar day number since 1970-01-01 plus time of day. -/
structure DateTime where
  day : Int
  hour : Int
  minute : Int
  second : Int
  ms : Int
deriving Repr, DecidableEq

/-- The time-of-day part of a `DateTime`, in milliseconds. -/
def todMs (dt : DateTime) : Int :=
  dt.hour * 3600000 + dt.minute * 60000 + dt.second * 1000 + dt.ms

/-- The epoch-millisecond value of a `DateTime` (what JS `Date` comparison
operators compare). -/
def toMs (dt : DateTime) : Int :=
  dt.day * 86400000 + todMs dt

/-- JS `a < b` on `Date` values: comparison of epoch milliseconds. -/
def DateTime.lt (a b : DateTime) : Prop := toMs a < toMs b

/-- JS `a <= b` on `Date` values: comparison of epoch milliseconds. -/
def DateTime.le (a b : DateTime) : Prop := toMs a ≤ toMs b

instance (a b : DateTime) : Decidable (DateTime.lt a b) := by
  unfold DateTime.lt; infer_instance

instance (a b : DateTime) : Decidable (DateTime.le a b) := by
  unfold DateTime.le; infer_instance

/-- `date-fns` `addDays`: shift the calendar day, keep the wall-clock time. -/
def addDays (dt : DateTime) (n : Int) : DateTime := { dt with day := dt.day + n }

/-- `date-fns` `subDays`. -/
def subDays (dt : DateTime) (n : Int) : DateTime := { dt with day := dt.day - n }

/-- JS day-of-week of a calendar day number: 0 = Sunday … 6 = Saturday
(1970-01-01, day 0, was a Thursday = 4). -/
def dayOfWeekNum (n : Int) : Int := (n + 4) % 7

/-- Weekend test on a calendar day number (Saturday = 6 or Sunday = 0). -/
def weekendDayNum (n : Int) : Bool :=
  dayOfWeekNum n == 0 || dayOfWeekNum n == 6

/-- `date-fns` `isWeekend` reads the local calendar day of the date. -/
def isWeekend (dt : DateTime) : Bool := weekendDayNum dt.day

/-- Holiday-set membership of a calendar day number.  The fetched set of ISO
`YYYY-MM-DD` strings is modelled by the list `H` of its calendar day numbers
(the rendering of a day as its ISO string is a bijection). -/
def holidayDayNum (H : List Int) (n : Int) : Bool := decide (n ∈ H)

/-- `isUKBankHoliday` from the bank-holiday module, specialised to a fixed
holiday set `H`: `format(date, 'yyyy-MM-dd')` renders the local calendar day,
which is then tested for membership. -/
def isUKBankHoliday (H : List Int) (dt : DateTime) : Bool := holidayDayNum H dt.day

/-- Working-day test on a calendar day number. -/
def workingDayNum (H : List Int) (n : Int) : Bool :=
  !weekendDayNum n && !holidayDayNum H n

/-- `isWorkingDay` from `src/dateCalculations.ts`:
not a weekend and not a bank holiday. -/
def isWorkingDay (H : List Int) (dt : DateTime) : Bool :=
  !isWeekend dt && !isUKBankHoliday H dt

/-- An upper bound for the (finite) holiday list. -/
def maxH (H : List Int) : Int := H.foldr max 0

/-- Every member of the holiday list is bounded by `maxH`. -/
def le_maxH (H : List Int) : ∀ a ∈ H, a ≤ maxH H := by
  intro a ha
  induction H with
  | nil => cases ha
  | cons b t ih =>
    rcases List.mem_cons.mp ha with rfl | ht
    · exact le_max_left _ _
    · exact le_trans (ih ht) (le_max_right _ _)

/-- The day-stepping loop of `getNextWorkingDay` terminates: some day at or
after `n + 1` is a working day (a weekday beyond every listed holiday). -/
def exists_workingDayNum (H : List Int) (n : Int) :
    ∃ k : Nat, workingDayNum H (n + 1 + (k : Int)) = true := by
  -- pick a day x beyond n and every listed holiday with (x + 4) mod 7 = 4,
  -- i.e. a Thursday: it is neither a weekend day nor a holiday
  obtain ⟨c, hc1, hc2⟩ : ∃ c : Int, n + 1 ≤ c ∧ maxH H ≤ c :=
    ⟨max (n + 1) (maxH H), le_max_left _ _, le_max_right _ _⟩
  have h1 : c ≤ ((c.toNat : Int)) := Int.self_le_toNat c
  obtain ⟨x, hxdef⟩ : ∃ x : Int, x = 7 * ((c.toNat : Int) + 1) := ⟨_, rfl⟩
  have hxm : c < x := by omega
  refine ⟨(x - (n + 1)).toNat, ?_⟩
  have hge : 0 ≤ x - (n + 1) := by omega
  have hcast : ((x - (n + 1)).toNat : Int) = x - (n + 1) := Int.toNat_of_nonneg hge
  rw [hcast]
  have hxval : n + 1 + (x - (n + 1)) = x := by ring
  rw [hxval]
  have hweek : weekendDayNum x = false := by
    have h4 : (x + 4) % 7 = 4 := by omega
    simp [weekendDayNum, dayOfWeekNum, h4]
  have hhol : holidayDayNum H x = false := by
    simp only [holidayDayNum, decide_eq_false_iff_not]
    intro hmem
    exact absurd (le_maxH H x hmem) (by omega)
  simp [workingDayNum, hweek, hhol]

/-- `getNextWorkingDay` from `src/dateCalculations.ts`:
`current = addDays(fromDate, 1); while (!isWorkingDay(current)) current =
addDays(current, 1); return current` — i.e. the first calendar day at or
after `day + 1` that is a working day, with the wall-clock time preserved
(`addDays` does not touch it). -/
def getNextWorkingDay (H : List Int) (fromDate : DateTime) : DateTime :=
  { fromDate with
    day := fromDate.day + 1 + ((Nat.find (exists_workingDayNum H fromDate.day) : Nat) : Int) }

/-- The `direction` argument of `calculateWorkingDays`. -/
inductive Direction where
  | forward
  | backward
deriving Repr, DecidableEq

/-- The `while (workingDaysCount < Math.abs(numDays))` loop of
`calculateWorkingDays`, with explicit fuel for the unbounded source loop:
`none` means the loop was still running when the fuel ran out. -/
def calcGo (H : List Int) (addOrSubtract : DateTime → DateTime) (target : Nat)
    (fuel : Nat) (current : DateTime) (workingDaysCount : Nat) : Option DateTime :=
  match fuel with
  | 0 => if workingDaysCount < target then none else some current
  | fuel + 1 =>
    if workingDaysCount < target then
      let next := addOrSubtract current
      if isWorkingDay H next then calcGo H addOrSubtract target fuel next (workingDaysCount + 1)
      else calcGo H addOrSubtract target fuel next workingDaysCount
    else some current

/-- `calculateWorkingDays` from `src/dateCalculations.ts`: step day by day in
the given direction, counting a step whenever the newly reached day is a
working day, until `Math.abs(numDays)` working days have been counted;
return the date then reached (`numDays = 0` returns a copy of the start). -/
def calculateWorkingDays (H : List Int) (fuel : Nat) (startDate : DateTime)
    (numDays : Int) (direction : Direction) : Option DateTime :=
  let addOrSubtract : DateTime → DateTime := match direction with
    | .forward => fun d => addDays d 1
    | .backward => fun d => subDays d 1
  calcGo H addOrSubtract numDays.natAbs fuel startDate 0

/-- The `while (current <= end)` loop of `getWorkingDaysBetween`, with fuel;
the fuel chosen in `getWorkingDaysBetween` always outlasts the loop. -/
def gwdbLoop (H : List Int) (endDate : DateTime) : Nat → DateTime → Nat
  | 0, _ => 0
  | fuel + 1, current =>
    if DateTime.le current endDate then
      (if isWorkingDay H current then 1 else 0) + gwdbLoop H endDate fuel (addDays current 1)
    else 0

/-- `getWorkingDaysBetween` from `src/dateCalculations.ts`:
`if (start > end) return 0`, else count working days over
`current = start, start + 1 day, …` while `current <= end`
(a JS `Date` comparison, i.e. epoch milliseconds). -/
def getWorkingDaysBetween (H : List Int) (startDate endDate : DateTime) : Nat :=
  if DateTime.lt endDate startDate then 0
  else gwdbLoop H endDate ((endDate.day - startDate.day).toNat + 2) startDate

/-- Modelled from the spec, for comparison with `getWorkingDaysBetween`:
"counts every calendar day in the inclusive range `[start, end]` that
satisfies `isWorkingDay`" — the number of working calendar days between day
numbers `a` and `b` inclusive. -/
def workingDaysInRange (H : List Int) (a b : Int) : Nat :=
  ((Finset.Icc a b).filter (fun d => workingDayNum H d = true)).card

/-- The record returned by `getCurrentSprintInfo`.  Dates are calendar day
numbers. -/
structure SprintInfo where
  sprintNumber : Int
  daysIntoSprint : Int
  daysRemaining : Int
  currentSprintStart : Int
  currentSprintEnd : Int
deriving Repr, DecidableEq

/-- `getCurrentSprintInfo` from `src/dateCalculations.ts`.
`daysSinceStart` is the value of `differenceInDays(now, sprintStart)`
(taken as an input, since `now` is wall-clock).  JS `Math.floor(d / L)` is
floor division `Int.fdiv`, and the JS `%` operator is the truncated
remainder `Int.tmod`. -/
def getCurrentSprintInfo (sprintStart : Int) (daysSinceStart : Int)
    (sprintLengthWeeks : Int) : SprintInfo :=
  let sprintLengthDays := sprintLengthWeeks * 7
  let sprintNumber := daysSinceStart.fdiv sprintLengthDays + 1
  let daysIntoSprint := daysSinceStart.tmod sprintLengthDays
  let daysRemaining := sprintLengthDays - daysIntoSprint
  { sprintNumber := sprintNumber
    daysIntoSprint := daysIntoSprint
    daysRemaining := daysRemaining
    currentSprintStart := sprintStart + (sprintNumber - 1) * sprintLengthDays
    currentSprintEnd := sprintStart + (sprintNumber - 1) * sprintLengthDays + (sprintLengthDays - 1) }

/-! ### Asana due-date policy (the Asana helper module) -/

/-- The module-level constant `ASANA_DUE_HOUR = 16` (4:00 PM), hard-coded in
the Asana helper module. -/
def ASANA_DUE_HOUR : Int := 16

/-- `date-fns` `setHours`: replaces the local wall-clock hour. -/
def setHours (dt : DateTime) (h : Int) : DateTime := { dt with hour := h }

/-- `date-fns` `setMinutes`. -/
def setMinutes (dt : DateTime) (m : Int) : DateTime := { dt with minute := m }

/-- `date-fns` `setSeconds`. -/
def setSeconds (dt : DateTime) (s : Int) : DateTime := { dt with second := s }

/-- `date-fns` `setMilliseconds`. -/
def setMilliseconds (dt : DateTime) (m : Int) : DateTime := { dt with ms := m }

/-- JS `getDay` of a `DateTime` (0 = Sunday … 6 = Saturday, Friday = 5). -/
def getDay (dt : DateTime) : Int := dayOfWeekNum dt.day

/-- `getAsanaDueDate` from the Asana helper module, with the `fromDate`
argument supplied (the source defaults it to `getTodayUK()`):
if `getDay(fromDate) = 5` (Friday) apply `getNextWorkingDay` twice, else
once, then set the time of day to 16:00:00.000 with the `date-fns`
setters. -/
def getAsanaDueDate (H : List Int) (fromDate : DateTime) : DateTime :=
  let dayOfWeek := getDay fromDate
  let dueDate : DateTime :=
    if dayOfWeek = 5 then getNextWorkingDay H (getNextWorkingDay H fromDate)
    else getNextWorkingDay H fromDate
  let d1 := setHours dueDate ASANA_DUE_HOUR
  let d2 := setMinutes d1 0
  let d3 := setSeconds d2 0
  setMilliseconds d3 0

end Calc

/-! ## Bank holidays: fetchers and the 24-hour cache (the bank-holiday module) -/

namespace BankHolidays

/-- One event of the GOV.UK response (`england-and-wales.events`). -/
structure UKEvent where
  title : String
  date : String
  notes : String
  bunting : Bool
deriving Repr, DecidableEq

/-- The `UKBankHolidayResponse` interface, reduced to the only field the
code reads. -/
structure UKBankHolidayResponse where
  events : List UKEvent
deriving Repr, DecidableEq

/-- The `BankHoliday` interface of the Nager.Date response. -/
structure BankHoliday where
  date : String
  localName : String
  name : String
deriving Repr, DecidableEq

/-- Outcome of one external HTTP interaction (fetch plus JSON parse):
either parsed data, or a thrown network/parse error. -/
inductive FetchOutcome (α : Type) where
  | success (data : α)
  | failure (err : String)
deriving Repr, DecidableEq

/-- Outcome of one Nager.Date per-year request: a thrown network/parse
error, a non-2xx response (`response.ok` false), or parsed data. -/
inductive NagerOutcome where
  | thrown (err : String)
  | notOk (status : Nat)
  | ok (data : List BankHoliday)
deriving Repr, DecidableEq

/-- `fetchUKBankHolidays`: on success collect `event.date` for every event
into the holiday set (modelled as a list, membership being all that is used);
the `catch` turns any thrown error into an empty set. -/
def fetchUKBankHolidays (resp : FetchOutcome UKBankHolidayResponse) : List String :=
  match resp with
  | .success data => data.events.map (fun e => e.date)
  | .failure _ => []

/-- `fetchNagerDateHolidays`: loop over the current and next year.  A
non-2xx response logs and `continue`s (that year is skipped); a thrown
error aborts the whole function through the `catch`, yielding an empty
set. -/
def fetchNagerDateHolidays (respCurrentYear respNextYear : NagerOutcome) : List String :=
  match respCurrentYear with
  | .thrown _ => []
  | .notOk _ =>
    match respNextYear with
    | .thrown _ => []
    | .notOk _ => []
    | .ok d2 => d2.map (fun h => h.date)
  | .ok d1 =>
    match respNextYear with
    | .thrown _ => []
    | .notOk _ => d1.map (fun h => h.date)
    | .ok d2 => d1.map (fun h => h.date) ++ d2.map (fun h => h.date)

/-- The module-level mutable cache
(`cachedHolidays`, `cacheExpiry`, `cachedCountry`), made explicit. -/
structure State where
  cachedHolidays : Option (List String)
  cacheExpiry : Int
  cachedCountry : Option String
deriving Repr, DecidableEq

/-- Result of one `fetchBankHolidays` call: the returned set, the cache
state afterwards, and whether an external fetch was performed. -/
structure FetchResult where
  holidays : List String
  state : State
  didFetch : Bool
deriving Repr, DecidableEq

/-- 24 hours in milliseconds (`24 * 60 * 60 * 1000`). -/
def DAY_MS : Int := 24 * 60 * 60 * 1000

/-- `fetchBankHolidays`: return an empty set if holidays are disabled;
return the cached set, untouched and without fetching, when a cached set
exists, `now < cacheExpiry`, and it was cached for the configured country;
otherwise fetch (GOV.UK for `'GB'`, Nager.Date for any other country),
store the result with a fresh 24-hour expiry and the fetch country, and
return it.  `now` is `Date.now()`; the external responses are inputs. -/
def fetchBankHolidays (cfg : Config) (now : Int)
    (ukResp : FetchOutcome UKBankHolidayResponse)
    (nagerCurrentYear nagerNextYear : NagerOutcome) (s : State) : FetchResult :=
  let country := cfg.bankHolidayCountry
  if !cfg.enableBankHolidays then ⟨[], s, false⟩
  else if h : s.cachedHolidays.isSome ∧ now < s.cacheExpiry ∧ s.cachedCountry = some country then
    ⟨s.cachedHolidays.get h.1, s, false⟩
  else
    let holidays :=
      if country = "GB" then fetchUKBankHolidays ukResp
      else fetchNagerDateHolidays nagerCurrentYear nagerNextYear
    ⟨holidays, ⟨some holidays, now + DAY_MS, some country⟩, true⟩

/-- `isUKBankHoliday`: false immediately when holidays are disabled;
otherwise obtain the holiday set through `fetchBankHolidays` and test
membership of the formatted date string (`Set.has`).  Returns the boolean
together with the cache state afterwards. -/
def isUKBankHoliday (cfg : Config) (now : Int)
    (ukResp : FetchOutcome UKBankHolidayResponse)
    (nagerCurrentYear nagerNextYear : NagerOutcome) (s : State)
    (dateString : String) : Bool × State :=
  if !cfg.enableBankHolidays then (false, s)
  else
    let r := fetchBankHolidays cfg now ukResp nagerCurrentYear nagerNextYear s
    (r.holidays.contains dateString, r.state)

end BankHolidays

/-! ## Zoned versus process-local calendar classification -/

namespace Zoned

/-- The calendar day number that an instant (epoch milliseconds) falls on in
a timezone of fixed UTC offset `offMin` minutes: shift, then floor-divide by
the length of a day.  This is the calendar date a JS `Date` shows through
its local accessors when the process runs at that offset. -/
def localDayNumber (instantMs offMin : Int) : Int :=
  (instantMs + offMin * 60000).fdiv 86400000

/-- Day-of-week (JS numbering) of an instant at a fixed offset. -/
def dayOfWeekAt (instantMs offMin : Int) : Int :=
  (localDayNumber instantMs offMin + 4) % 7

/-- Weekend test of an instant at a fixed offset. -/
def isWeekendAt (instantMs offMin : Int) : Bool :=
  dayOfWeekAt instantMs offMin == 0 || dayOfWeekAt instantMs offMin == 6

/-- The code's `isWorkingDay` applied to an instant: `date-fns` `isWeekend`
and `format(date, 'yyyy-MM-dd')` both read the process-local fields of the
`Date`, so both classify by the calendar day at the process offset
`procOff`.  `H` is the holiday set as calendar day numbers (ISO strings are
in bijection with days). -/
def isWorkingDayCoded (H : List Int) (procOff instantMs : Int) : Bool :=
  !isWeekendAt instantMs procOff && !(decide (localDayNumber instantMs procOff ∈ H))

/-- Modelled from the spec: "day-of-week and `is weekend` are evaluated
against the zoned calendar date" and "normalize `date` to its ISO day
string in the configured timezone" — the classification of an instant by
the calendar day in the configured timezone, of offset `cfgOff`. -/
def isWorkingDaySpec (H : List Int) (cfgOff instantMs : Int) : Bool :=
  !isWeekendAt instantMs cfgOff && !(decide (localDayNumber instantMs cfgOff ∈ H))

/-- The code's holiday test on an instant (membership of the rendered local
calendar day), when holidays are enabled. -/
def isHolidayCoded (H : List Int) (procOff instantMs : Int) : Bool :=
  decide (localDayNumber instantMs procOff ∈ H)

/-- Modelled from the spec: holiday membership of the calendar day in the
configured timezone. -/
def isHolidaySpec (H : List Int) (cfgOff instantMs : Int) : Bool :=
  decide (localDayNumber instantMs cfgOff ∈ H)

end Zoned

/-!
## Theorems

One theorem per claim (with counterexamples and witnesses where needed),
preceded by shared helper lemmas.
-/

/-- Helper: the searched index of `getNextWorkingDay [1]` from day 0 is 3
(day 1 is the listed holiday, days 2 and 3 are the weekend, day 4 is a
Monday), so the returned calendar day is 4. -/
theorem getNextWorkingDay_example_day :
    (Calc.getNextWorkingDay [1] ⟨0, 0, 0, 0, 0⟩).day = 4 := by
  have h3 : Nat.find (Calc.exists_workingDayNum [1] 0) = 3 := by
    rw [Nat.find_eq_iff]
    refine ⟨by decide, ?_⟩
    decide
  simp [Calc.getNextWorkingDay, h3]

/-- Claim C1, as stated, is false: `getAsanaDueDate` hard-codes the due hour
16 and never reads `config.asanaDueHour`.  With `ASANA_DUE_HOUR=10` in the
environment the configured due hour is 10, but the returned hour is 16. -/
theorem claim1_counterexample :
    (Calc.getAsanaDueDate [] ⟨0, 0, 0, 0, 0⟩).hour
      ≠ (getConfig none none (some 10)).asanaDueHour := by
  decide

/-- Claim C1 (amended): for every holiday set and every `from` date,
`getAsanaDueDate` sets the local wall-clock time of the result to the
module's hard-coded `ASANA_DUE_HOUR = 16`, with minutes, seconds and
sub-seconds all zero — regardless of the configured `asanaDueHour`. -/
theorem claim1_hard_coded_due_hour (H : List Int) (dt : Calc.DateTime) :
    (Calc.getAsanaDueDate H dt).hour = 16
    ∧ (Calc.getAsanaDueDate H dt).minute = 0
    ∧ (Calc.getAsanaDueDate H dt).second = 0
    ∧ (Calc.getAsanaDueDate H dt).ms = 0 :=
  ⟨rfl, rfl, rfl, rfl⟩

/-- Claim C2: if the `from` date's day-of-week is Friday (JS `getDay = 5`),
`getAsanaDueDate` is `getNextWorkingDay` applied twice followed by the
time-of-day setters; otherwise it is `getNextWorkingDay` applied once
followed by the same setters. -/
theorem claim2_friday_double_step (H : List Int) (dt : Calc.DateTime) :
    (Calc.getDay dt = 5 →
      Calc.getAsanaDueDate H dt =
        Calc.setMilliseconds (Calc.setSeconds (Calc.setMinutes (Calc.setHours
          (Calc.getNextWorkingDay H (Calc.getNextWorkingDay H dt))
          Calc.ASANA_DUE_HOUR) 0) 0) 0)
    ∧ (Calc.getDay dt ≠ 5 →
      Calc.getAsanaDueDate H dt =
        Calc.setMilliseconds (Calc.setSeconds (Calc.setMinutes (Calc.setHours
          (Calc.getNextWorkingDay H dt) Calc.ASANA_DUE_HOUR) 0) 0) 0) := by
  constructor <;> intro h <;> simp [Calc.getAsanaDueDate, h]

/-- Witness for C2: day 1 (1970-01-02) is a Friday, day 0 a Thursday. -/
theorem claim2_witness :
    (Calc.getAsanaDueDate [] ⟨1, 0, 0, 0, 0⟩ =
      Calc.setMilliseconds (Calc.setSeconds (Calc.setMinutes (Calc.setHours
        (Calc.getNextWorkingDay [] (Calc.getNextWorkingDay [] ⟨1, 0, 0, 0, 0⟩))
        Calc.ASANA_DUE_HOUR) 0) 0) 0)
    ∧ (Calc.getAsanaDueDate [] ⟨0, 0, 0, 0, 0⟩ =
      Calc.setMilliseconds (Calc.setSeconds (Calc.setMinutes (Calc.setHours
        (Calc.getNextWorkingDay [] ⟨0, 0, 0, 0, 0⟩) Calc.ASANA_DUE_HOUR) 0) 0) 0) :=
  ⟨(claim2_friday_double_step [] ⟨1, 0, 0, 0, 0⟩).1 (by decide),
   (claim2_friday_double_step [] ⟨0, 0, 0, 0, 0⟩).2 (by decide)⟩

/-- Claim C4: `getNextWorkingDay` returns a date strictly after its input
(JS `Date` order), the result is a working day, and it is the least such:
every calendar day strictly between the input day and the result day is not
a working day. -/
theorem claim4_next_working_day (H : List Int) (dt : Calc.DateTime) :
    Calc.DateTime.lt dt (Calc.getNextWorkingDay H dt)
    ∧ Calc.isWorkingDay H (Calc.getNextWorkingDay H dt) = true
    ∧ ∀ m : Int, dt.day < m → m < (Calc.getNextWorkingDay H dt).day →
        Calc.workingDayNum H m = false := by
  have hspec := Nat.find_spec (Calc.exists_workingDayNum H dt.day)
  refine ⟨?_, ?_, ?_⟩
  · show Calc.toMs dt < Calc.toMs _
    simp only [Calc.getNextWorkingDay, Calc.toMs, Calc.todMs]
    omega
  · simpa [Calc.getNextWorkingDay, Calc.isWorkingDay, Calc.isWeekend,
      Calc.isUKBankHoliday, Calc.workingDayNum] using hspec
  · intro m h1 h2
    simp only [Calc.getNextWorkingDay] at h2
    have hj : (m - dt.day - 1).toNat < Nat.find (Calc.exists_workingDayNum H dt.day) := by
      omega
    have hmin := Nat.find_min (Calc.exists_workingDayNum H dt.day) hj
    have hcast : (((m - dt.day - 1).toNat : Nat) : Int) = m - dt.day - 1 :=
      Int.toNat_of_nonneg (by omega)
    rw [hcast] at hmin
    have hsum : dt.day + 1 + (m - dt.day - 1) = m := by ring
    rw [hsum] at hmin
    simpa using hmin

/-- Witness for C4: from day 0 (Thursday) with day 1 a holiday, the result
is day 4 (Monday); day 2 (Saturday), strictly between, is not working. -/
theorem claim4_witness :
    Calc.DateTime.lt ⟨0, 0, 0, 0, 0⟩ (Calc.getNextWorkingDay [1] ⟨0, 0, 0, 0, 0⟩)
    ∧ Calc.isWorkingDay [1] (Calc.getNextWorkingDay [1] ⟨0, 0, 0, 0, 0⟩) = true
    ∧ Calc.workingDayNum [1] 2 = false :=
  ⟨(claim4_next_working_day [1] ⟨0, 0, 0, 0, 0⟩).1,
   (claim4_next_working_day [1] ⟨0, 0, 0, 0, 0⟩).2.1,
   (claim4_next_working_day [1] ⟨0, 0, 0, 0, 0⟩).2.2 2 (by decide)
     (by rw [getNextWorkingDay_example_day]; decide)⟩

/-- Claim C8: for non-negative elapsed days and at least one week of sprint
length, `getCurrentSprintInfo` returns
`sprintNumber = floor(d / (w*7)) + 1 ≥ 1`,
`daysIntoSprint = d mod (w*7)` with `0 ≤ daysIntoSprint < w*7`, and
`daysRemaining = w*7 − daysIntoSprint` (JS `Math.floor(d / L)` is `Int.fdiv`;
for `d ≥ 0` the JS `%` agrees with the mathematical remainder). -/
theorem claim8_sprint_info (start d w : Int) (hd : 0 ≤ d) (hw : 1 ≤ w) :
    (Calc.getCurrentSprintInfo start d w).sprintNumber = d.fdiv (w * 7) + 1
    ∧ 1 ≤ (Calc.getCurrentSprintInfo start d w).sprintNumber
    ∧ (Calc.getCurrentSprintInfo start d w).daysIntoSprint = d.tmod (w * 7)
    ∧ 0 ≤ (Calc.getCurrentSprintInfo start d w).daysIntoSprint
    ∧ (Calc.getCurrentSprintInfo start d w).daysIntoSprint < w * 7
    ∧ (Calc.getCurrentSprintInfo start d w).daysRemaining
        = w * 7 - (Calc.getCurrentSprintInfo start d w).daysIntoSprint := by
  have hL : (0 : Int) < w * 7 := by omega
  have htm : d.tmod (w * 7) = d % (w * 7) := Int.tmod_eq_emod hd (by omega)
  have hnn : 0 ≤ d % (w * 7) := Int.emod_nonneg d (by omega)
  have hlt : d % (w * 7) < w * 7 := Int.emod_lt_of_pos d hL
  have hfd : 0 ≤ d.fdiv (w * 7) := Int.fdiv_nonneg hd (by omega)
  refine ⟨rfl, by simpa [Calc.getCurrentSprintInfo] using hfd, rfl, ?_, ?_, rfl⟩
  · simpa [Calc.getCurrentSprintInfo, htm] using hnn
  · simpa [Calc.getCurrentSprintInfo, htm] using hlt

/-- Witness for C8 at `d = 10`, `w = 2`. -/
theorem claim8_witness :
    (Calc.getCurrentSprintInfo 0 10 2).sprintNumber = (10 : Int).fdiv (2 * 7) + 1
    ∧ 1 ≤ (Calc.getCurrentSprintInfo 0 10 2).sprintNumber
    ∧ (Calc.getCurrentSprintInfo 0 10 2).daysIntoSprint = (10 : Int).tmod (2 * 7)
    ∧ 0 ≤ (Calc.getCurrentSprintInfo 0 10 2).daysIntoSprint
    ∧ (Calc.getCurrentSprintInfo 0 10 2).daysIntoSprint < 2 * 7
    ∧ (Calc.getCurrentSprintInfo 0 10 2).daysRemaining
        = 2 * 7 - (Calc.getCurrentSprintInfo 0 10 2).daysIntoSprint :=
  claim8_sprint_info 0 10 2 (by decide) (by decide)

/-- Claim C10: `calculateWorkingDays` depends on `numDays` only through its
absolute value (the loop bound is `Math.abs(numDays)`), and zero working
days returns the start date unchanged — at every fuel. -/
theorem claim10_abs_step_count (H : List Int) (fuel : Nat) (start : Calc.DateTime)
    (n : Int) (dir : Calc.Direction) :
    Calc.calculateWorkingDays H fuel start n dir
      = Calc.calculateWorkingDays H fuel start ((n.natAbs : Int)) dir
    ∧ Calc.calculateWorkingDays H fuel start 0 dir = some start := by
  constructor
  · simp [Calc.calculateWorkingDays, Int.natAbs_abs]
  · cases fuel <;> simp [Calc.calculateWorkingDays, Calc.calcGo]

/-- Claim C6: every failure of the external holiday sources yields an empty
holiday set instead of an exception — `fetchUKBankHolidays` on a thrown
error, `fetchNagerDateHolidays` on a thrown error in either year — and
`isUKBankHoliday` on a failed GB fetch (empty cache) returns `false`
(fails open); all the embedded functions are total, modelling that no
exception escapes the `try/catch` blocks. -/
theorem claim6_fetch_failures (e : String) (r2 : BankHolidays.NagerOutcome)
    (d1 : List BankHolidays.BankHoliday) (tz : String) (hr : Int) (now expiry : Int)
    (cc : Option String) (n1 n2 : BankHolidays.NagerOutcome) (ds : String) :
    BankHolidays.fetchUKBankHolidays (.failure e) = []
    ∧ BankHolidays.fetchNagerDateHolidays (.thrown e) r2 = []
    ∧ BankHolidays.fetchNagerDateHolidays (.ok d1) (.thrown e) = []
    ∧ (BankHolidays.isUKBankHoliday ⟨tz, hr, "GB", true⟩ now (.failure e) n1 n2
        ⟨none, expiry, cc⟩ ds).1 = false := by
  refine ⟨rfl, rfl, rfl, ?_⟩
  simp [BankHolidays.isUKBankHoliday, BankHolidays.fetchBankHolidays,
    BankHolidays.fetchUKBankHolidays]

/-- Helper: `fetchBankHolidays` with holidays disabled: empty set, state
untouched, no fetch. -/
theorem fetchBankHolidays_disabled (cfg : Config) (now : Int)
    (uk : BankHolidays.FetchOutcome BankHolidays.UKBankHolidayResponse)
    (n1 n2 : BankHolidays.NagerOutcome) (s : BankHolidays.State)
    (hen : cfg.enableBankHolidays = false) :
    BankHolidays.fetchBankHolidays cfg now uk n1 n2 s = ⟨[], s, false⟩ := by
  unfold BankHolidays.fetchBankHolidays
  rw [if_pos (by simp [hen])]

/-- Helper: `fetchBankHolidays` on a cache hit returns the cached set with
the state untouched and no fetch. -/
theorem fetchBankHolidays_hit (cfg : Config) (now : Int)
    (uk : BankHolidays.FetchOutcome BankHolidays.UKBankHolidayResponse)
    (n1 n2 : BankHolidays.NagerOutcome) (s : BankHolidays.State) (h : List String)
    (hen : cfg.enableBankHolidays = true) (hc : s.cachedHolidays = some h)
    (ht : now < s.cacheExpiry) (hcc : s.cachedCountry = some cfg.bankHolidayCountry) :
    BankHolidays.fetchBankHolidays cfg now uk n1 n2 s = ⟨h, s, false⟩ := by
  unfold BankHolidays.fetchBankHolidays
  rw [if_neg (by simp [hen]), dif_pos ⟨by simp [hc], ht, hcc⟩]
  simp [hc]

/-- Helper: `fetchBankHolidays` on a cache miss (holidays enabled) fetches:
it reports a fetch, stores the fetched set with a fresh 24-hour expiry and
the configured country, and the fetched set is the dispatched source's
result. -/
theorem fetchBankHolidays_miss (cfg : Config) (now : Int)
    (uk : BankHolidays.FetchOutcome BankHolidays.UKBankHolidayResponse)
    (n1 n2 : BankHolidays.NagerOutcome) (s : BankHolidays.State)
    (hen : cfg.enableBankHolidays = true)
    (hmiss : ¬(s.cachedHolidays.isSome ∧ now < s.cacheExpiry
        ∧ s.cachedCountry = some cfg.bankHolidayCountry)) :
    (BankHolidays.fetchBankHolidays cfg now uk n1 n2 s).didFetch = true
    ∧ (BankHolidays.fetchBankHolidays cfg now uk n1 n2 s).state
        = ⟨some (BankHolidays.fetchBankHolidays cfg now uk n1 n2 s).holidays,
            now + BankHolidays.DAY_MS, some cfg.bankHolidayCountry⟩
    ∧ (BankHolidays.fetchBankHolidays cfg now uk n1 n2 s).holidays
        = (if cfg.bankHolidayCountry = "GB" then BankHolidays.fetchUKBankHolidays uk
           else BankHolidays.fetchNagerDateHolidays n1 n2) := by
  unfold BankHolidays.fetchBankHolidays
  rw [if_neg (by simp [hen]), dif_neg hmiss]
  exact ⟨rfl, rfl, rfl⟩

/-- Claim C5: (i) when a cached set exists, was cached for the configured
country, and `now` is before the expiry, `fetchBankHolidays` returns it
unchanged without fetching; (ii) two consecutive calls within 24 hours
(same immutable configuration, hence the same country) perform at most one
external fetch; (iii) when the cached country differs from the configured
country and holidays are enabled, the call fetches, regardless of cache
age. -/
theorem claim5_cache_behavior (cfg : Config) (s : BankHolidays.State) (now t2 : Int)
    (uk1 uk2 : BankHolidays.FetchOutcome BankHolidays.UKBankHolidayResponse)
    (n1 n2 n3 n4 : BankHolidays.NagerOutcome) (h : List String) :
    (cfg.enableBankHolidays = true → s.cachedHolidays = some h →
      now < s.cacheExpiry → s.cachedCountry = some cfg.bankHolidayCountry →
      BankHolidays.fetchBankHolidays cfg now uk1 n1 n2 s = ⟨h, s, false⟩)
    ∧ (now ≤ t2 → t2 < now + BankHolidays.DAY_MS →
        ¬((BankHolidays.fetchBankHolidays cfg now uk1 n1 n2 s).didFetch = true
          ∧ (BankHolidays.fetchBankHolidays cfg t2 uk2 n3 n4
              (BankHolidays.fetchBankHolidays cfg now uk1 n1 n2 s).state).didFetch = true))
    ∧ (cfg.enableBankHolidays = true →
        s.cachedCountry ≠ some cfg.bankHolidayCountry →
        (BankHolidays.fetchBankHolidays cfg now uk1 n1 n2 s).didFetch = true) := by
  refine ⟨fun hen hc ht hcc => fetchBankHolidays_hit cfg now uk1 n1 n2 s h hen hc ht hcc,
    ?_, ?_⟩
  · intro ht1 ht2 ⟨f1, f2⟩
    cases hen : cfg.enableBankHolidays with
    | false =>
      rw [fetchBankHolidays_disabled cfg now uk1 n1 n2 s hen] at f1
      simp at f1
    | true =>
      by_cases hguard : s.cachedHolidays.isSome ∧ now < s.cacheExpiry
          ∧ s.cachedCountry = some cfg.bankHolidayCountry
      · obtain ⟨h0, hh0⟩ := Option.isSome_iff_exists.mp hguard.1
        rw [fetchBankHolidays_hit cfg now uk1 n1 n2 s h0 hen hh0 hguard.2.1 hguard.2.2] at f1
        simp at f1
      · obtain ⟨-, hstate, -⟩ := fetchBankHolidays_miss cfg now uk1 n1 n2 s hen hguard
        rw [hstate] at f2
        rw [fetchBankHolidays_hit cfg t2 uk2 n3 n4 _ _ hen rfl
          (by simpa using ht2) rfl] at f2
        simp at f2
  · intro hen hne
    refine (fetchBankHolidays_miss cfg now uk1 n1 n2 s hen ?_).1
    intro hguard
    exact hne hguard.2.2

/-- Witness for C5 with the `GB` configuration: a warm same-country cache is
returned unchanged without a fetch; two calls 10 ms apart fetch at most
once; a cache recorded for `FR` forces a fetch under the `GB`
configuration. -/
theorem claim5_witness :
    (BankHolidays.fetchBankHolidays ⟨"Europe/London", 16, "GB", true⟩ 50
        (.failure "net down") (.thrown "x") (.thrown "x")
        ⟨some ["2025-12-25"], 100, some "GB"⟩
      = ⟨["2025-12-25"], ⟨some ["2025-12-25"], 100, some "GB"⟩, false⟩)
    ∧ ¬((BankHolidays.fetchBankHolidays ⟨"Europe/London", 16, "GB", true⟩ 50
          (.failure "net down") (.thrown "x") (.thrown "x")
          ⟨some ["2025-12-25"], 100, some "GB"⟩).didFetch = true
        ∧ (BankHolidays.fetchBankHolidays ⟨"Europe/London", 16, "GB", true⟩ 60
            (.failure "net down") (.thrown "x") (.thrown "x")
            (BankHolidays.fetchBankHolidays ⟨"Europe/London", 16, "GB", true⟩ 50
              (.failure "net down") (.thrown "x") (.thrown "x")
              ⟨some ["2025-12-25"], 100, some "GB"⟩).state).didFetch = true)
    ∧ (BankHolidays.fetchBankHolidays ⟨"Europe/London", 16, "GB", true⟩ 50
        (.failure "net down") (.thrown "x") (.thrown "x")
        ⟨some [], 0, some "FR"⟩).didFetch = true :=
  ⟨(claim5_cache_behavior ⟨"Europe/London", 16, "GB", true⟩
      ⟨some ["2025-12-25"], 100, some "GB"⟩ 50 60 (.failure "net down") (.failure "net down")
      (.thrown "x") (.thrown "x") (.thrown "x") (.thrown "x") ["2025-12-25"]).1
      rfl rfl (by decide) rfl,
   (claim5_cache_behavior ⟨"Europe/London", 16, "GB", true⟩
      ⟨some ["2025-12-25"], 100, some "GB"⟩ 50 60 (.failure "net down") (.failure "net down")
      (.thrown "x") (.thrown "x") (.thrown "x") (.thrown "x") ["2025-12-25"]).2.1
      (by decide) (by decide),
   (claim5_cache_behavior ⟨"Europe/London", 16, "GB", true⟩
      ⟨some [], 0, some "FR"⟩ 50 60 (.failure "net down") (.failure "net down")
      (.thrown "x") (.thrown "x") (.thrown "x") (.thrown "x") []).2.2
      rfl (by decide)⟩

/-- Claim C9: when a `GB` fetch fails (thrown error) and the call actually
fetched, the empty result is itself cached with the full 24-hour expiry and
the fetch country recorded, and every subsequent call within those 24 hours
returns the empty set without fetching. -/
theorem claim9_failed_fetch_cached (cfg : Config) (s : BankHolidays.State)
    (now t2 : Int) (e : String)
    (uk2 : BankHolidays.FetchOutcome BankHolidays.UKBankHolidayResponse)
    (n1 n2 n3 n4 : BankHolidays.NagerOutcome)
    (hen : cfg.enableBankHolidays = true) (hgb : cfg.bankHolidayCountry = "GB")
    (hfetch : (BankHolidays.fetchBankHolidays cfg now (.failure e) n1 n2 s).didFetch = true) :
    (BankHolidays.fetchBankHolidays cfg now (.failure e) n1 n2 s).holidays = []
    ∧ (BankHolidays.fetchBankHolidays cfg now (.failure e) n1 n2 s).state
        = ⟨some [], now + BankHolidays.DAY_MS, some cfg.bankHolidayCountry⟩
    ∧ (now ≤ t2 → t2 < now + BankHolidays.DAY_MS →
        BankHolidays.fetchBankHolidays cfg t2 uk2 n3 n4
            (BankHolidays.fetchBankHolidays cfg now (.failure e) n1 n2 s).state
          = ⟨[], (BankHolidays.fetchBankHolidays cfg now (.failure e) n1 n2 s).state,
              false⟩) := by
  have hmiss : ¬(s.cachedHolidays.isSome ∧ now < s.cacheExpiry
      ∧ s.cachedCountry = some cfg.bankHolidayCountry) := by
    intro hguard
    obtain ⟨h0, hh0⟩ := Option.isSome_iff_exists.mp hguard.1
    rw [fetchBankHolidays_hit cfg now (.failure e) n1 n2 s h0 hen hh0
      hguard.2.1 hguard.2.2] at hfetch
    simp at hfetch
  obtain ⟨-, hstate, hhol⟩ :=
    fetchBankHolidays_miss cfg now (.failure e) n1 n2 s hen hmiss
  have hempty : (BankHolidays.fetchBankHolidays cfg now (.failure e) n1 n2 s).holidays = [] := by
    rw [hhol, if_pos hgb]
    rfl
  rw [hempty] at hstate
  refine ⟨hempty, hstate, fun ht1 ht2 => ?_⟩
  rw [hstate]
  exact fetchBankHolidays_hit cfg t2 uk2 n3 n4 _ [] hen rfl (by simpa using ht2) rfl

/-- Witness for C9: a cold cache, a failed `GB` fetch at time 0, and a
second call at time 5. -/
theorem claim9_witness :
    (BankHolidays.fetchBankHolidays ⟨"Europe/London", 16, "GB", true⟩ 0
        (.failure "boom") (.thrown "x") (.thrown "x") ⟨none, 0, none⟩).holidays = []
    ∧ (BankHolidays.fetchBankHolidays ⟨"Europe/London", 16, "GB", true⟩ 0
        (.failure "boom") (.thrown "x") (.thrown "x") ⟨none, 0, none⟩).state
        = ⟨some [], 0 + BankHolidays.DAY_MS, some "GB"⟩
    ∧ BankHolidays.fetchBankHolidays ⟨"Europe/London", 16, "GB", true⟩ 5
        (.failure "boom2") (.thrown "y") (.thrown "y")
        (BankHolidays.fetchBankHolidays ⟨"Europe/London", 16, "GB", true⟩ 0
          (.failure "boom") (.thrown "x") (.thrown "x") ⟨none, 0, none⟩).state
      = ⟨[], (BankHolidays.fetchBankHolidays ⟨"Europe/London", 16, "GB", true⟩ 0
          (.failure "boom") (.thrown "x") (.thrown "x") ⟨none, 0, none⟩).state, false⟩ :=
  ⟨(claim9_failed_fetch_cached ⟨"Europe/London", 16, "GB", true⟩ ⟨none, 0, none⟩ 0 5 "boom"
      (.failure "boom2") (.thrown "x") (.thrown "x") (.thrown "y") (.thrown "y")
      rfl rfl (by decide)).1,
   (claim9_failed_fetch_cached ⟨"Europe/London", 16, "GB", true⟩ ⟨none, 0, none⟩ 0 5 "boom"
      (.failure "boom2") (.thrown "x") (.thrown "x") (.thrown "y") (.thrown "y")
      rfl rfl (by decide)).2.1,
   (claim9_failed_fetch_cached ⟨"Europe/London", 16, "GB", true⟩ ⟨none, 0, none⟩ 0 5 "boom"
      (.failure "boom2") (.thrown "x") (.thrown "x") (.thrown "y") (.thrown "y")
      rfl rfl (by decide)).2.2 (by decide) (by decide)⟩

/-- Helper: the inclusive-range working-day count splits off its first day. -/
theorem workingDaysInRange_split (H : List Int) (a b : Int) (h : a ≤ b) :
    Calc.workingDaysInRange H a b
      = (if Calc.workingDayNum H a = true then 1 else 0)
        + Calc.workingDaysInRange H (a + 1) b := by
  unfold Calc.workingDaysInRange
  have hIoc : Finset.Ioc a b = Finset.Icc (a + 1) b := by
    ext x
    simp [Int.add_one_le_iff]
  rw [← Finset.Ioc_insert_left h, Finset.filter_insert, hIoc]
  by_cases hm : Calc.workingDayNum H a = true
  · rw [if_pos hm, if_pos hm, Finset.card_insert_of_not_mem (by simp)]
    omega
  · rw [if_neg hm, if_neg hm]
    omega

/-- Helper: the inclusive-range working-day count on a single day. -/
theorem workingDaysInRange_single (H : List Int) (a : Int) :
    Calc.workingDaysInRange H a a
      = (if Calc.workingDayNum H a = true then 1 else 0) := by
  unfold Calc.workingDaysInRange
  rw [Finset.Icc_self, Finset.filter_singleton]
  by_cases hm : Calc.workingDayNum H a = true <;> simp [hm]

/-- Helper: one unfolding step of the `getWorkingDaysBetween` loop. -/
theorem gwdbLoop_succ (H : List Int) (e : Calc.DateTime) (f : Nat) (c : Calc.DateTime) :
    Calc.gwdbLoop H e (f + 1) c
      = if Calc.DateTime.le c e then
          (if Calc.isWorkingDay H c = true then 1 else 0)
            + Calc.gwdbLoop H e f (Calc.addDays c 1)
        else 0 := rfl

/-- Helper: with valid times of day and the start's time of day at most the
end's, the `getWorkingDaysBetween` loop counts exactly the working calendar
days of the inclusive day range (given enough fuel). -/
theorem gwdbLoop_eq_range (H : List Int) (e : Calc.DateTime)
    (he0 : 0 ≤ Calc.todMs e) (he1 : Calc.todMs e < 86400000) :
    ∀ (fuel : Nat) (c : Calc.DateTime), 0 ≤ Calc.todMs c → Calc.todMs c < 86400000 →
      Calc.todMs c ≤ Calc.todMs e → c.day ≤ e.day →
      (e.day - c.day).toNat + 2 ≤ fuel →
      Calc.gwdbLoop H e fuel c = Calc.workingDaysInRange H c.day e.day := by
  intro fuel
  induction fuel with
  | zero =>
    intro c _ _ _ _ hf
    omega
  | succ f ih =>
    intro c hc0 hc1 hce hday hf
    have hle : Calc.DateTime.le c e := by
      simp only [Calc.DateTime.le, Calc.toMs]
      omega
    have htod : Calc.todMs (Calc.addDays c 1) = Calc.todMs c := rfl
    have hday1 : (Calc.addDays c 1).day = c.day + 1 := rfl
    rw [gwdbLoop_succ, if_pos hle]
    have hw : Calc.isWorkingDay H c = Calc.workingDayNum H c.day := rfl
    rcases eq_or_lt_of_le hday with heq | hlt
    · obtain ⟨f', rfl⟩ : ∃ f', f = f' + 1 := ⟨f - 1, by omega⟩
      have hnle : ¬ Calc.DateTime.le (Calc.addDays c 1) e := by
        simp only [Calc.DateTime.le, Calc.toMs]
        rw [htod, hday1]
        omega
      rw [gwdbLoop_succ, if_neg hnle, heq, workingDaysInRange_single, hw, heq]
      omega
    · have hrec := ih (Calc.addDays c 1) (by rw [htod]; exact hc0)
        (by rw [htod]; exact hc1) (by rw [htod]; exact hce)
        (by rw [hday1]; omega) (by rw [hday1]; omega)
      rw [hrec, hday1, workingDaysInRange_split H c.day e.day hday, hw]

/-- Claim C7, as stated, is false: the loop guard `current <= end` compares
full JS `Date` instants, so with `start` at 12:00 on day 4 (a Monday) and
`end` at 00:00 on day 5 (a Tuesday), `getWorkingDaysBetween` counts only
day 4 and returns 1, while the inclusive calendar range `[4, 5]` holds two
working days. -/
theorem claim7_counterexample :
    Calc.getWorkingDaysBetween [] ⟨4, 12, 0, 0, 0⟩ ⟨5, 0, 0, 0, 0⟩ = 1
    ∧ Calc.workingDaysInRange [] 4 5 = 2 := by
  constructor
  · decide
  · rw [workingDaysInRange_split [] 4 5 (by omega),
      show (4 : Int) + 1 = 5 by omega, workingDaysInRange_single]
    decide

/-- Claim C7 (amended): `getWorkingDaysBetween` returns 0 whenever
`start > end` (JS instant order); with valid times of day it returns the
inclusive calendar-range working-day count whenever the start's time of day
is no later than the end's (in particular for pure dates, which share a
time of day); and on `(a, a)` it returns 1 exactly when `a` is a working
day, else 0. -/
theorem claim7_working_days_between (H : List Int) (s e a : Calc.DateTime) :
    (Calc.DateTime.lt e s → Calc.getWorkingDaysBetween H s e = 0)
    ∧ (¬ Calc.DateTime.lt e s → 0 ≤ Calc.todMs s → Calc.todMs s < 86400000 →
        0 ≤ Calc.todMs e → Calc.todMs e < 86400000 → Calc.todMs s ≤ Calc.todMs e →
        Calc.getWorkingDaysBetween H s e = Calc.workingDaysInRange H s.day e.day)
    ∧ (Calc.getWorkingDaysBetween H a a
        = if Calc.isWorkingDay H a = true then 1 else 0) := by
  refine ⟨?_, ?_, ?_⟩
  · intro hlt
    unfold Calc.getWorkingDaysBetween
    rw [if_pos hlt]
  · intro hnlt hs0 hs1 he0 he1 hse
    have hday : s.day ≤ e.day := by
      simp only [Calc.DateTime.lt, Calc.toMs, not_lt] at hnlt
      omega
    unfold Calc.getWorkingDaysBetween
    rw [if_neg hnlt]
    exact gwdbLoop_eq_range H e he0 he1 _ s hs0 hs1 hse hday (by omega)
  · have hnlt : ¬ Calc.DateTime.lt a a := by
      simp [Calc.DateTime.lt]
    unfold Calc.getWorkingDaysBetween
    rw [if_neg hnlt, show (a.day - a.day).toNat + 2 = 1 + 1 + 0 by omega]
    have hle : Calc.DateTime.le a a := by simp [Calc.DateTime.le]
    have hnle : ¬ Calc.DateTime.le (Calc.addDays a 1) a := by
      simp only [Calc.DateTime.le, Calc.toMs]
      have htod : Calc.todMs (Calc.addDays a 1) = Calc.todMs a := rfl
      have hday1 : (Calc.addDays a 1).day = a.day + 1 := rfl
      rw [htod, hday1]
      omega
    rw [show (1 : Nat) + 1 + 0 = Nat.succ 1 by omega, gwdbLoop_succ, if_pos hle,
      gwdbLoop_succ, if_neg hnle]
    omega

/-- Witness for C7: instantiations at concrete dates discharging every
hypothesis — a reversed pair returns 0; a midnight pair over days 4–5
returns the inclusive-range count; a single working day counts once. -/
theorem claim7_witness :
    Calc.getWorkingDaysBetween [] ⟨5, 0, 0, 0, 0⟩ ⟨4, 0, 0, 0, 0⟩ = 0
    ∧ Calc.getWorkingDaysBetween [] ⟨4, 0, 0, 0, 0⟩ ⟨5, 0, 0, 0, 0⟩
        = Calc.workingDaysInRange [] 4 5
    ∧ Calc.getWorkingDaysBetween [] ⟨4, 0, 0, 0, 0⟩ ⟨4, 0, 0, 0, 0⟩
        = if Calc.isWorkingDay [] ⟨4, 0, 0, 0, 0⟩ = true then 1 else 0 :=
  ⟨(claim7_working_days_between [] ⟨5, 0, 0, 0, 0⟩ ⟨4, 0, 0, 0, 0⟩
      ⟨4, 0, 0, 0, 0⟩).1 (by decide),
   (claim7_working_days_between [] ⟨4, 0, 0, 0, 0⟩ ⟨5, 0, 0, 0, 0⟩
      ⟨4, 0, 0, 0, 0⟩).2.1 (by decide) (by decide) (by decide) (by decide)
      (by decide) (by decide),
   (claim7_working_days_between [] ⟨4, 0, 0, 0, 0⟩ ⟨5, 0, 0, 0, 0⟩
      ⟨4, 0, 0, 0, 0⟩).2.2⟩

/-- Claim C3, as stated, is false: `isWeekend` and
`format(date, 'yyyy-MM-dd')` classify by the process-local calendar date,
not by the configured timezone.  At the instant 171000000 ms (day 1 at
23:30 UTC, a Friday) with the process at UTC (offset 0) and the configured
zone at +60 minutes: the code classifies a working weekday while the zoned
classification sees Saturday, and the code misses a holiday registered on
the zoned Saturday. -/
theorem claim3_counterexample :
    Zoned.isWorkingDayCoded [] 0 171000000 = true
    ∧ Zoned.isWorkingDaySpec [] 60 171000000 = false
    ∧ Zoned.isHolidayCoded [2] 0 171000000 = false
    ∧ Zoned.isHolidaySpec [2] 60 171000000 = true := by
  refine ⟨by decide, by decide, by decide, by decide⟩

/-- Claim C3 (amended): the code's weekend and holiday classifications are
made against the process-local calendar date (they coincide with the
spec-shaped classifier evaluated at the process offset), and they agree
with the configured-timezone classification exactly when the process
offset equals the configured offset — which the system arranges upstream by
shifting instants with `utcToZonedTime` before classification. -/
theorem claim3_process_local_classification (H : List Int) (procOff cfgOff t : Int) :
    Zoned.isWorkingDayCoded H procOff t = Zoned.isWorkingDaySpec H procOff t
    ∧ Zoned.isHolidayCoded H procOff t = Zoned.isHolidaySpec H procOff t
    ∧ (procOff = cfgOff →
        Zoned.isWorkingDayCoded H procOff t = Zoned.isWorkingDaySpec H cfgOff t
        ∧ Zoned.isHolidayCoded H procOff t = Zoned.isHolidaySpec H cfgOff t) := by
  refine ⟨rfl, rfl, ?_⟩
  rintro rfl
  exact ⟨rfl, rfl⟩

/-- Witness for C3 (amended) at equal offsets. -/
theorem claim3_witness :
    Zoned.isWorkingDayCoded [] 60 171000000 = Zoned.isWorkingDaySpec [] 60 171000000
    ∧ Zoned.isHolidayCoded [] 60 171000000 = Zoned.isHolidaySpec [] 60 171000000 :=
  (claim3_process_local_classification [] 60 60 171000000).2.2 rfl
